import Mathlib

/-!
Verification of the Pomodoro timer state machine (`pomodoro_py/cli_timer.py`).

The `Timer` class is a pure, synchronous state machine; the only effect in it
is reading the monotonic clock (`time.monotonic()`).  We embed it shallowly:
each method becomes a Lean function taking the current monotonic time `now : ℚ`
as an explicit argument, and the constructor (which raises `ValueError` on
non-positive durations) returns `Option Timer`.  Python numbers are modelled
as rationals; Python's `int(x)` (truncation toward zero) is `pyInt`.
-/

namespace Pomodoro

/-- `current_mode` field: the string `"focus"` or `"rest"`. -/
inductive Mode where
  | focus : Mode
  | rest : Mode
deriving DecidableEq, Repr

/-- The `Timer` object's fields, as assigned in `Timer.__init__` and mutated by
the methods.  `_continued_focus_elapsed_seconds` is an int used as a marker
(0 = inactive, set to 1 when continued focus starts). -/
structure Timer where
  focus_minutes : ℚ
  rest_minutes : ℚ
  current_mode : Mode
  time_left_seconds : ℚ
  is_running : Bool
  is_paused : Bool
  start_time : ℚ
  paused_time : ℚ
  continued_focus_elapsed_seconds : ℤ
deriving DecidableEq, Repr

/-- Python's `int(x)`: truncation toward zero. -/
def pyInt (q : ℚ) : ℤ := if q < 0 then ⌈q⌉ else ⌊q⌋

/-- `Timer.__init__`: raises `ValueError` (here: `none`) unless both durations
are positive; otherwise initial state is focus mode, not running, not paused,
`time_left_seconds = focus_minutes * 60`. -/
def Timer.init (focus_minutes rest_minutes : ℚ) : Option Timer :=
  if focus_minutes ≤ 0 ∨ rest_minutes ≤ 0 then none
  else some
    { focus_minutes := focus_minutes
      rest_minutes := rest_minutes
      current_mode := Mode.focus
      time_left_seconds := focus_minutes * 60
      is_running := false
      is_paused := false
      start_time := 0
      paused_time := 0
      continued_focus_elapsed_seconds := 0 }

/-- Property `initial_duration_for_mode`: the full duration in seconds for the
current mode. -/
def Timer.initial_duration_for_mode (t : Timer) : ℚ :=
  if t.current_mode = Mode.focus then t.focus_minutes * 60
  else t.rest_minutes * 60

/-- `Timer.start`: begin running the current mode from its full duration,
anchoring at `now` and clearing the continued-focus marker. -/
def Timer.start (t : Timer) (now : ℚ) : Timer :=
  { t with
    is_running := true
    is_paused := false
    start_time := now
    continued_focus_elapsed_seconds := 0
    time_left_seconds := t.initial_duration_for_mode }

/-- `Timer.pause`: if running and not paused, record the pause time and freeze
`time_left_seconds` at its accurately recomputed value; otherwise no-op. -/
def Timer.pause (t : Timer) (now : ℚ) : Timer :=
  if t.is_running && !t.is_paused then
    let elapsed_time_before_pause := now - t.start_time
    let frozen : ℚ :=
      if 0 < t.continued_focus_elapsed_seconds then
        elapsed_time_before_pause
      else
        max 0 (t.initial_duration_for_mode - elapsed_time_before_pause)
    { t with
      is_paused := true
      paused_time := now
      time_left_seconds := frozen }
  else t

/-- `Timer.resume`: if running and paused, shift `start_time` forward by the
pause duration and clear `is_paused`; otherwise no-op. -/
def Timer.resume (t : Timer) (now : ℚ) : Timer :=
  if t.is_running && t.is_paused then
    { t with
      start_time := t.start_time + (now - t.paused_time)
      is_paused := false }
  else t

/-- `Timer.stop`: reset to idle for the current mode. -/
def Timer.stop (t : Timer) : Timer :=
  { t with
    is_running := false
    is_paused := false
    continued_focus_elapsed_seconds := 0
    time_left_seconds := t.initial_duration_for_mode }

/-- `Timer.tick`: returns the updated timer and the `bool` the method returns
(`True` iff the current segment is over). -/
def Timer.tick (t : Timer) (now : ℚ) : Timer × Bool :=
  if !t.is_running || t.is_paused then (t, false)
  else
    let elapsed_time := now - t.start_time
    if 0 < t.continued_focus_elapsed_seconds then
      ({ t with time_left_seconds := elapsed_time }, false)
    else
      let current_time_left := t.initial_duration_for_mode - elapsed_time
      let new_left : ℤ := max 0 (pyInt current_time_left)
      ({ t with time_left_seconds := (new_left : ℚ) }, new_left = 0)

/-- `Timer.switch_mode`: flip the mode, reset `time_left_seconds` to the new
mode's full duration, and clear running/paused/continued-focus. -/
def Timer.switch_mode (t : Timer) : Timer :=
  if t.current_mode = Mode.focus then
    { t with
      current_mode := Mode.rest
      time_left_seconds := t.rest_minutes * 60
      is_running := false
      is_paused := false
      continued_focus_elapsed_seconds := 0 }
  else
    { t with
      current_mode := Mode.focus
      time_left_seconds := t.focus_minutes * 60
      is_running := false
      is_paused := false
      continued_focus_elapsed_seconds := 0 }

/-- `Timer.start_continue_focus`: guarded by
`current_mode == "focus" and time_left_seconds == 0 and
_continued_focus_elapsed_seconds == 0`; on success enters the count-up
sub-mode with a fresh anchor; otherwise prints a warning and changes nothing. -/
def Timer.start_continue_focus (t : Timer) (now : ℚ) : Timer :=
  if t.current_mode = Mode.focus ∧ t.time_left_seconds = 0 ∧
      t.continued_focus_elapsed_seconds = 0 then
    { t with
      is_running := true
      is_paused := false
      start_time := now
      continued_focus_elapsed_seconds := 1
      time_left_seconds := 0 }
  else t

/-- States reachable from a freshly constructed `Timer` by any sequence of the
public operations, each supplied with an arbitrary monotonic-clock sample. -/
inductive Reachable : Timer → Prop where
  | init (f r : ℚ) (t : Timer) : Timer.init f r = some t → Reachable t
  | start (t : Timer) (now : ℚ) : Reachable t → Reachable (t.start now)
  | pause (t : Timer) (now : ℚ) : Reachable t → Reachable (t.pause now)
  | resume (t : Timer) (now : ℚ) : Reachable t → Reachable (t.resume now)
  | stop (t : Timer) : Reachable t → Reachable t.stop
  | tick (t : Timer) (now : ℚ) : Reachable t → Reachable (t.tick now).1
  | switch_mode (t : Timer) : Reachable t → Reachable t.switch_mode
  | start_continue_focus (t : Timer) (now : ℚ) :
      Reachable t → Reachable (t.start_continue_focus now)

/-- A concrete freshly constructed timer, `Timer(1, 1)`, used by witnesses. -/
def timerA : Timer :=
  { focus_minutes := 1
    rest_minutes := 1
    current_mode := Mode.focus
    time_left_seconds := 60
    is_running := false
    is_paused := false
    start_time := 0
    paused_time := 0
    continued_focus_elapsed_seconds := 0 }

/-- C4: for every prior state, `switch_mode` flips the mode between focus and
rest, sets `time_left_seconds` to the new mode's full duration
(`rest_minutes * 60` after focus→rest, `focus_minutes * 60` after rest→focus),
and clears running, paused, and the continued-focus marker. -/
theorem switch_mode_spec (t : Timer) :
    (t.current_mode = Mode.focus →
      t.switch_mode.current_mode = Mode.rest ∧
      t.switch_mode.time_left_seconds = t.rest_minutes * 60) ∧
    (t.current_mode = Mode.rest →
      t.switch_mode.current_mode = Mode.focus ∧
      t.switch_mode.time_left_seconds = t.focus_minutes * 60) ∧
    t.switch_mode.is_running = false ∧
    t.switch_mode.is_paused = false ∧
    t.switch_mode.continued_focus_elapsed_seconds = 0 := by
  cases h : t.current_mode <;> simp [Timer.switch_mode, h]

/-- C4 witness: `Timer(1,1)` is in focus mode, so switching lands in rest mode
with the rest duration. -/
theorem switch_mode_spec_witness :
    timerA.switch_mode.current_mode = Mode.rest ∧
    timerA.switch_mode.time_left_seconds = timerA.rest_minutes * 60 :=
  (switch_mode_spec timerA).1 rfl

/-- C5: for every prior state, `stop` keeps the mode, clears running, paused
and the continued-focus marker, and resets `time_left_seconds` to the current
mode's full duration. -/
theorem stop_spec (t : Timer) :
    t.stop.current_mode = t.current_mode ∧
    t.stop.is_running = false ∧
    t.stop.is_paused = false ∧
    t.stop.continued_focus_elapsed_seconds = 0 ∧
    t.stop.time_left_seconds = t.initial_duration_for_mode := by
  simp [Timer.stop]

/-- C6: for every prior state and clock sample, `start` sets running, clears
paused and the continued-focus marker, anchors at the current monotonic time,
keeps the mode, and resets `time_left_seconds` to the full duration for the
current mode (so re-entrant calls restart the segment from full duration). -/
theorem start_spec (t : Timer) (now : ℚ) :
    (t.start now).is_running = true ∧
    (t.start now).is_paused = false ∧
    (t.start now).continued_focus_elapsed_seconds = 0 ∧
    (t.start now).start_time = now ∧
    (t.start now).current_mode = t.current_mode ∧
    (t.start now).time_left_seconds = t.initial_duration_for_mode := by
  simp [Timer.start]

/-- C7 counterexample: the constructor's first argument is in minutes, so
`Timer(1, 1)` starts with `time_left_seconds = 60`, not `1`. -/
theorem init_remaining_counterexample :
    (Timer.init 1 1).map Timer.time_left_seconds = some 60 ∧
    (Timer.init 1 1).map Timer.time_left_seconds ≠ some 1 := by
  norm_num [Timer.init]

/-- C7 (amended): for all positive constructor arguments, the fresh timer has
focus mode, is not running, is not paused, and `time_left_seconds` equal to
60 times the first constructor argument (the argument is in minutes). -/
theorem init_spec (f r : ℚ) (hf : 0 < f) (hr' : 0 < r) :
    ∃ t, Timer.init f r = some t ∧
      t.current_mode = Mode.focus ∧
      t.is_running = false ∧
      t.is_paused = false ∧
      t.time_left_seconds = f * 60 := by
  have hcond : ¬ (f ≤ 0 ∨ r ≤ 0) := by push_neg; exact ⟨hf, hr'⟩
  exact ⟨{ focus_minutes := f, rest_minutes := r, current_mode := Mode.focus,
           time_left_seconds := f * 60, is_running := false, is_paused := false,
           start_time := 0, paused_time := 0, continued_focus_elapsed_seconds := 0 },
         by rw [Timer.init, if_neg hcond], rfl, rfl, rfl, rfl⟩

/-- C7 witness: construction of `Timer(1, 1)`. -/
theorem init_spec_witness :
    ∃ t, Timer.init 1 1 = some t ∧
      t.current_mode = Mode.focus ∧
      t.is_running = false ∧
      t.is_paused = false ∧
      t.time_left_seconds = 1 * 60 :=
  init_spec 1 1 (by norm_num) (by norm_num)

/-- C8: for every pair of constructor arguments with either duration ≤ 0,
construction fails with a `ValueError` and no timer is produced. -/
theorem init_invalid_spec (f r : ℚ) (h : f ≤ 0 ∨ r ≤ 0) :
    Timer.init f r = none := by
  simp [Timer.init, h]

/-- C8 witness: `Timer(0, 5)` fails to construct. -/
theorem init_invalid_spec_witness : Timer.init 0 5 = none :=
  init_invalid_spec 0 5 (Or.inl le_rfl)

/-- A started-then-finished focus timer: `Timer(1, 1)` started at monotonic
time 0 and ticked at time 60, so `time_left_seconds = 0`. -/
def timerF : Timer := ((timerA.start 0).tick 60).1

/-- `tick` never changes the mode, the flags, the durations or the
continued-focus marker; it only updates `time_left_seconds`. -/
theorem tick_preserves_flags (t : Timer) (now : ℚ) :
    (t.tick now).1.is_running = t.is_running ∧
    (t.tick now).1.is_paused = t.is_paused ∧
    (t.tick now).1.current_mode = t.current_mode ∧
    (t.tick now).1.continued_focus_elapsed_seconds
      = t.continued_focus_elapsed_seconds ∧
    (t.tick now).1.start_time = t.start_time ∧
    (t.tick now).1.focus_minutes = t.focus_minutes ∧
    (t.tick now).1.rest_minutes = t.rest_minutes := by
  rw [Timer.tick]
  split_ifs <;> simp

/-- The continued-focus marker of any reachable state is 0 or 1: it starts at
0, is only ever reset to 0 or set to 1. -/
theorem reachable_cont_eq (t : Timer) (h : Reachable t) :
    t.continued_focus_elapsed_seconds = 0 ∨
    t.continued_focus_elapsed_seconds = 1 := by
  induction h with
  | init f r t0 h0 =>
    rw [Timer.init] at h0
    split_ifs at h0
    cases h0
    exact Or.inl rfl
  | start t0 now _ _ => exact Or.inl rfl
  | pause t0 now _ ih =>
    rw [Timer.pause]
    split_ifs <;> exact ih
  | resume t0 now _ ih =>
    rw [Timer.resume]
    split_ifs <;> exact ih
  | stop t0 _ _ => exact Or.inl rfl
  | tick t0 now _ ih =>
    rw [(tick_preserves_flags t0 now).2.2.2.1]
    exact ih
  | switch_mode t0 _ _ =>
    rw [Timer.switch_mode]
    split_ifs <;> exact Or.inl rfl
  | start_continue_focus t0 now _ ih =>
    rw [Timer.start_continue_focus]
    split_ifs
    · exact Or.inr rfl
    · exact ih

/-- C9: in every reachable state, `is_paused = true` implies
`is_running = true`; construction establishes the implication and every
operation preserves it. -/
theorem paused_implies_running (t : Timer) (h : Reachable t)
    (hp : t.is_paused = true) : t.is_running = true := by
  revert hp
  induction h with
  | init f r t0 h0 =>
    rw [Timer.init] at h0
    split_ifs at h0
    rw [Option.some.injEq] at h0
    subst h0
    intro hp
    simp at hp
  | start t0 now _ _ =>
    intro _
    rfl
  | pause t0 now _ ih =>
    rw [Timer.pause]
    split_ifs with hg hg2
    · intro _
      rw [Bool.and_eq_true] at hg
      exact hg.1
    · intro _
      rw [Bool.and_eq_true] at hg
      exact hg.1
    · exact ih
  | resume t0 now _ ih =>
    rw [Timer.resume]
    split_ifs with hg
    · intro hp
      simp at hp
    · exact ih
  | stop t0 _ _ =>
    intro hp
    simp [Timer.stop] at hp
  | tick t0 now _ ih =>
    intro hp
    rw [(tick_preserves_flags t0 now).2.1] at hp
    rw [(tick_preserves_flags t0 now).1]
    exact ih hp
  | switch_mode t0 _ _ =>
    intro hp
    rw [Timer.switch_mode] at hp
    split_ifs at hp
  | start_continue_focus t0 now _ ih =>
    rw [Timer.start_continue_focus]
    split_ifs with hg
    · intro _
      rfl
    · exact ih

/-- C9 witness: `Timer(1,1)` started at 0 and paused at 10 is a reachable
paused state, and it is indeed running. -/
theorem paused_implies_running_witness :
    ((timerA.start 0).pause 10).is_running = true := by
  have h : Reachable ((timerA.start 0).pause 10) :=
    Reachable.pause _ 10 (Reachable.start _ 0
      (Reachable.init 1 1 timerA (by norm_num [Timer.init, timerA])))
  exact paused_implies_running _ h
    (by norm_num [Timer.pause, Timer.start, timerA])

/-- C10: in every reachable state, an active continued-focus marker implies
the mode is focus: the marker is only set in focus mode, and every operation
that can change the mode clears it. -/
theorem continued_implies_focus (t : Timer) (h : Reachable t)
    (hc : 0 < t.continued_focus_elapsed_seconds) :
    t.current_mode = Mode.focus := by
  revert hc
  induction h with
  | init f r t0 h0 =>
    rw [Timer.init] at h0
    split_ifs at h0
    rw [Option.some.injEq] at h0
    subst h0
    intro hc
    simp at hc
  | start t0 now _ _ =>
    intro hc
    simp [Timer.start] at hc
  | pause t0 now _ ih =>
    rw [Timer.pause]
    split_ifs with hg hg2 <;> exact ih
  | resume t0 now _ ih =>
    rw [Timer.resume]
    split_ifs with hg <;> exact ih
  | stop t0 _ _ =>
    intro hc
    simp [Timer.stop] at hc
  | tick t0 now _ ih =>
    intro hc
    rw [(tick_preserves_flags t0 now).2.2.2.1] at hc
    rw [(tick_preserves_flags t0 now).2.2.1]
    exact ih hc
  | switch_mode t0 _ _ =>
    intro hc
    rw [Timer.switch_mode] at hc
    split_ifs at hc <;> simp at hc
  | start_continue_focus t0 now _ ih =>
    rw [Timer.start_continue_focus]
    split_ifs with hg
    · intro _
      exact hg.1
    · exact ih

/-- C10 witness: after finishing a focus segment and starting continued focus,
the marker is active and the mode is focus. -/
theorem continued_implies_focus_witness :
    (timerF.start_continue_focus 100).current_mode = Mode.focus := by
  have h : Reachable (timerF.start_continue_focus 100) :=
    Reachable.start_continue_focus _ 100 (Reachable.tick _ 60
      (Reachable.start _ 0
        (Reachable.init 1 1 timerA (by norm_num [Timer.init, timerA]))))
  exact continued_implies_focus _ h
    (by norm_num [Timer.start_continue_focus, timerF, timerA, Timer.start,
      Timer.tick, Timer.initial_duration_for_mode, pyInt])

/-- C3: on a reachable state, `start_continue_focus` changes the state iff the
mode is focus, `time_left_seconds` is exactly 0, and continued focus is not
already active; on success it enters the running count-up sub-mode with a
fresh anchor, the marker set, and `time_left_seconds` reset to 0; otherwise
the whole state is unchanged (the method never raises, it only prints a
warning). -/
theorem start_continue_focus_spec (t : Timer) (now : ℚ) (h : Reachable t) :
    (t.current_mode = Mode.focus ∧ t.time_left_seconds = 0 ∧
        ¬ 0 < t.continued_focus_elapsed_seconds →
      t.start_continue_focus now =
        { t with
            is_running := true
            is_paused := false
            start_time := now
            continued_focus_elapsed_seconds := 1
            time_left_seconds := 0 } ∧
      t.start_continue_focus now ≠ t) ∧
    (¬ (t.current_mode = Mode.focus ∧ t.time_left_seconds = 0 ∧
        ¬ 0 < t.continued_focus_elapsed_seconds) →
      t.start_continue_focus now = t) := by
  have hc := reachable_cont_eq t h
  constructor
  · rintro ⟨hm, hz, hn⟩
    have hc0 : t.continued_focus_elapsed_seconds = 0 := by
      rcases hc with hc | hc
      · exact hc
      · exact absurd (by rw [hc]; norm_num) hn
    rw [Timer.start_continue_focus, if_pos ⟨hm, hz, hc0⟩]
    refine ⟨rfl, fun he => ?_⟩
    have h1 := congrArg Timer.continued_focus_elapsed_seconds he
    rw [hc0] at h1
    simp at h1
  · intro hn
    rw [Timer.start_continue_focus, if_neg]
    rintro ⟨hm, hz, hc0⟩
    exact hn ⟨hm, hz, by rw [hc0]; norm_num⟩

/-- C3 witness: on the reachable finished-focus state, `start_continue_focus`
does change the state. -/
theorem start_continue_focus_spec_witness :
    timerF.start_continue_focus 100 ≠ timerF := by
  have h : Reachable timerF :=
    Reachable.tick _ 60 (Reachable.start _ 0
      (Reachable.init 1 1 timerA (by norm_num [Timer.init, timerA])))
  have hcond : timerF.current_mode = Mode.focus ∧ timerF.time_left_seconds = 0 ∧
      ¬ 0 < timerF.continued_focus_elapsed_seconds := by
    norm_num [timerF, timerA, Timer.start, Timer.tick,
      Timer.initial_duration_for_mode, pyInt]
  exact ((start_continue_focus_spec timerF 100 h).1 hcond).2

/-- `tick` on a timer that is not running, or is paused, does nothing and
reports "not finished". -/
theorem tick_not_active (t : Timer) (now : ℚ)
    (h : t.is_running = false ∨ t.is_paused = true) : t.tick now = (t, false) := by
  rw [Timer.tick, if_pos]
  rcases h with h | h <;> rw [h] <;> simp

/-- `tick` on a running, unpaused timer in the count-up sub-mode. -/
theorem tick_countup (t : Timer) (now : ℚ) (hr : t.is_running = true)
    (hp : t.is_paused = false) (hc : 0 < t.continued_focus_elapsed_seconds) :
    t.tick now = ({ t with time_left_seconds := now - t.start_time }, false) := by
  rw [Timer.tick, if_neg (by rw [hr, hp]; simp)]
  simp [hc]

/-- `tick` on a running, unpaused timer in the countdown sub-mode. -/
theorem tick_countdown (t : Timer) (now : ℚ) (hr : t.is_running = true)
    (hp : t.is_paused = false) (hc : ¬ 0 < t.continued_focus_elapsed_seconds) :
    t.tick now =
      ({ t with
          time_left_seconds :=
            ((max 0 (pyInt (t.initial_duration_for_mode - (now - t.start_time)))
              : ℤ) : ℚ) },
        decide (max 0 (pyInt (t.initial_duration_for_mode - (now - t.start_time)))
          = 0)) := by
  rw [Timer.tick, if_neg (by rw [hr, hp]; simp)]
  simp [hc]

/-- Thanks to the outer `max 0`, Python's truncation toward zero agrees with
the floor. -/
theorem max_pyInt_eq_max_floor (q : ℚ) : max 0 (pyInt q) = max 0 ⌊q⌋ := by
  rw [pyInt]
  split_ifs with h
  · rw [max_eq_left (Int.ceil_le.mpr (by exact_mod_cast h.le)),
      max_eq_left (Int.le_floor.mp (by exact_mod_cast Int.floor_le_floor h.le))]
  · rfl

/-- The countdown's displayed value is 0 exactly when less than one full second
remains. -/
theorem max_floor_eq_zero_iff (q : ℚ) : max 0 ⌊q⌋ = 0 ↔ q < 1 := by
  constructor
  · intro h
    have h0 : ⌊q⌋ ≤ 0 := by
      rcases le_total ⌊q⌋ 0 with h1 | h1
      · exact h1
      · rw [max_eq_right h1] at h
        exact h.le
    have : ⌊q⌋ < 1 := by omega
    exact_mod_cast Int.floor_lt.mp (by exact_mod_cast this)
  · intro h
    have : ⌊q⌋ < 1 := Int.floor_lt.mpr (by exact_mod_cast h)
    exact max_eq_left (by omega)

/-- C1: `tick` is a complete no-op returning "not finished" when the timer is
not running or is paused; when running and unpaused with continued focus
active it sets `time_left_seconds` to the elapsed time since the anchor and
always returns "not finished", so successive ticks under a monotonic clock
yield a non-decreasing value; when running and unpaused in countdown sub-mode
it sets `time_left_seconds = max 0 ⌊duration - elapsed⌋` and returns
"finished" exactly when that value is 0 — never while it is positive — and
again, with the value staying 0, on every later tick. -/
theorem tick_spec (t : Timer) (now now2 : ℚ) :
    (¬ (t.is_running = true ∧ t.is_paused = false) → t.tick now = (t, false)) ∧
    (t.is_running = true → t.is_paused = false →
      0 < t.continued_focus_elapsed_seconds →
      (t.tick now).1.time_left_seconds = now - t.start_time ∧
      (t.tick now).2 = false ∧
      (now ≤ now2 →
        (t.tick now).1.time_left_seconds ≤
          ((t.tick now).1.tick now2).1.time_left_seconds)) ∧
    (t.is_running = true → t.is_paused = false →
      ¬ 0 < t.continued_focus_elapsed_seconds →
      (t.tick now).1.time_left_seconds =
        ((max 0 ⌊t.initial_duration_for_mode - (now - t.start_time)⌋ : ℤ) : ℚ) ∧
      ((t.tick now).2 = true ↔ (t.tick now).1.time_left_seconds = 0) ∧
      (now ≤ now2 → (t.tick now).2 = true →
        ((t.tick now).1.tick now2).2 = true ∧
        ((t.tick now).1.tick now2).1.time_left_seconds = 0)) := by
  refine ⟨?_, ?_, ?_⟩
  · intro hn
    apply tick_not_active
    cases hr : t.is_running
    · exact Or.inl rfl
    · cases hp : t.is_paused
      · exact absurd ⟨hr, hp⟩ hn
      · exact Or.inr rfl
  · intro hr hp hc
    have e1 := tick_countup t now hr hp hc
    have e2 := tick_countup
      { t with time_left_seconds := now - t.start_time } now2 hr hp hc
    refine ⟨by rw [e1], by rw [e1], fun h12 => ?_⟩
    rw [e1]
    dsimp only
    rw [e2]
    dsimp only
    exact sub_le_sub_right h12 _
  · intro hr hp hc
    have hq := max_pyInt_eq_max_floor
      (t.initial_duration_for_mode - (now - t.start_time))
    have e1 := tick_countdown t now hr hp hc
    refine ⟨?_, ?_, ?_⟩
    · rw [e1]
      dsimp only
      exact_mod_cast hq
    · rw [e1]
      dsimp only
      rw [decide_eq_true_iff]
      exact_mod_cast Iff.rfl
    · intro h12 hfin
      rw [e1] at hfin
      dsimp only at hfin
      rw [decide_eq_true_iff] at hfin
      have hlt : t.initial_duration_for_mode - (now - t.start_time) < 1 :=
        (max_floor_eq_zero_iff _).mp (hq ▸ hfin)
      have hlt2 : t.initial_duration_for_mode - (now2 - t.start_time) < 1 := by
        linarith
      have hz : max 0 (pyInt (t.initial_duration_for_mode
          - (now2 - t.start_time))) = 0 := by
        rw [max_pyInt_eq_max_floor]
        exact (max_floor_eq_zero_iff _).mpr hlt2
      have e2 := tick_countdown
        { t with time_left_seconds :=
            ((max 0 (pyInt (t.initial_duration_for_mode - (now - t.start_time)))
              : ℤ) : ℚ) } now2 hr hp hc
      rw [e1]
      dsimp only
      rw [e2]
      dsimp only
      exact ⟨decide_eq_true hz, by exact_mod_cast hz⟩

/-- `pause` is a no-op unless the timer is running and not paused. -/
theorem pause_not_active (t : Timer) (now : ℚ)
    (h : ¬ (t.is_running = true ∧ t.is_paused = false)) : t.pause now = t := by
  rw [Timer.pause, if_neg]
  intro hg
  rw [Bool.and_eq_true] at hg
  exact h ⟨hg.1, by simpa using hg.2⟩

/-- `pause` never changes the mode, the running flag, the durations, the
anchor, or the continued-focus marker. -/
theorem pause_proj (t : Timer) (now : ℚ) :
    (t.pause now).is_running = t.is_running ∧
    (t.pause now).start_time = t.start_time ∧
    (t.pause now).current_mode = t.current_mode ∧
    (t.pause now).focus_minutes = t.focus_minutes ∧
    (t.pause now).rest_minutes = t.rest_minutes ∧
    (t.pause now).continued_focus_elapsed_seconds
      = t.continued_focus_elapsed_seconds := by
  rw [Timer.pause]
  split_ifs <;> simp

/-- A valid `pause` sets the paused flag and records the pause timestamp. -/
theorem pause_active_proj (t : Timer) (now : ℚ) (hr : t.is_running = true)
    (hp : t.is_paused = false) :
    (t.pause now).is_paused = true ∧ (t.pause now).paused_time = now := by
  rw [Timer.pause, if_pos (by rw [hr, hp]; rfl)]
  constructor <;> simp

/-- A valid `pause` in countdown sub-mode freezes the remaining time at
`max 0 (duration - elapsed)` (no flooring here). -/
theorem pause_time_left_countdown (t : Timer) (now : ℚ)
    (hr : t.is_running = true) (hp : t.is_paused = false)
    (hc : ¬ 0 < t.continued_focus_elapsed_seconds) :
    (t.pause now).time_left_seconds =
      max 0 (t.initial_duration_for_mode - (now - t.start_time)) := by
  rw [Timer.pause, if_pos (by rw [hr, hp]; rfl)]
  simp [hc]

/-- A valid `pause` in count-up sub-mode freezes the elapsed time. -/
theorem pause_time_left_countup (t : Timer) (now : ℚ)
    (hr : t.is_running = true) (hp : t.is_paused = false)
    (hc : 0 < t.continued_focus_elapsed_seconds) :
    (t.pause now).time_left_seconds = now - t.start_time := by
  rw [Timer.pause, if_pos (by rw [hr, hp]; rfl)]
  simp [hc]

/-- `resume` is a no-op unless the timer is running and paused. -/
theorem resume_not_paused (t : Timer) (now : ℚ)
    (h : ¬ (t.is_running = true ∧ t.is_paused = true)) : t.resume now = t := by
  rw [Timer.resume, if_neg]
  intro hg
  rw [Bool.and_eq_true] at hg
  exact h ⟨hg.1, hg.2⟩

/-- A valid `resume` shifts the anchor forward by the pause duration and
clears the paused flag, changing nothing else. -/
theorem resume_eq (t : Timer) (now : ℚ) (hr : t.is_running = true)
    (hp : t.is_paused = true) :
    t.resume now =
      { t with
          start_time := t.start_time + (now - t.paused_time)
          is_paused := false } := by
  rw [Timer.resume, if_pos (by rw [hr, hp]; rfl)]

/-- `resume` never changes the mode, the running flag, the durations, the
remaining time, or the continued-focus marker. -/
theorem resume_proj (t : Timer) (now : ℚ) :
    (t.resume now).is_running = t.is_running ∧
    (t.resume now).current_mode = t.current_mode ∧
    (t.resume now).focus_minutes = t.focus_minutes ∧
    (t.resume now).rest_minutes = t.rest_minutes ∧
    (t.resume now).time_left_seconds = t.time_left_seconds ∧
    (t.resume now).continued_focus_elapsed_seconds
      = t.continued_focus_elapsed_seconds := by
  rw [Timer.resume]
  split_ifs <;> simp

/-- A valid `resume` leaves the timer unpaused with the shifted anchor. -/
theorem resume_active_proj (t : Timer) (now : ℚ) (hr : t.is_running = true)
    (hp : t.is_paused = true) :
    (t.resume now).is_paused = false ∧
    (t.resume now).start_time = t.start_time + (now - t.paused_time) := by
  rw [resume_eq t now hr hp]
  constructor <;> simp

/-- The truncated-and-clamped countdown value is strictly below any positive
bound that the untruncated value is below. -/
theorem cast_max_pyInt_lt (q x : ℚ) (hx : 0 < x) (hqx : q < x) :
    ((max 0 (pyInt q) : ℤ) : ℚ) < x := by
  rw [pyInt]
  split_ifs with h
  · rw [max_eq_left (Int.ceil_le.mpr (by exact_mod_cast h.le))]
    exact_mod_cast hx
  · rcases le_or_lt ⌊q⌋ 0 with h1 | h1
    · rw [max_eq_left h1]
      exact_mod_cast hx
    · rw [max_eq_right h1.le]
      exact lt_of_le_of_lt (Int.floor_le q) hqx

/-- C2: `pause` is a no-op unless running and unpaused; a valid `pause` sets
the paused flag, records the pause timestamp, and freezes `time_left_seconds`
at `max 0 (duration - elapsed)` in countdown sub-mode and at the elapsed time
in count-up sub-mode, after which `tick` is a complete no-op (the frozen value
cannot change) until `resume`; `resume` is a no-op unless running and paused,
and a valid `resume` clears the paused flag and shifts the anchor forward by
the pause duration; after pausing, resuming and letting further time pass, a
tick strictly decreases the remaining time below its frozen value in countdown
sub-mode (when the frozen value was still positive) and strictly increases it
in count-up sub-mode. -/
theorem pause_resume_spec (t : Timer) (p r n2 : ℚ) :
    (¬ (t.is_running = true ∧ t.is_paused = false) → t.pause p = t) ∧
    (t.is_running = true → t.is_paused = false →
      (t.pause p).is_paused = true ∧
      (t.pause p).paused_time = p ∧
      (¬ 0 < t.continued_focus_elapsed_seconds →
        (t.pause p).time_left_seconds =
          max 0 (t.initial_duration_for_mode - (p - t.start_time))) ∧
      (0 < t.continued_focus_elapsed_seconds →
        (t.pause p).time_left_seconds = p - t.start_time) ∧
      (t.pause p).tick n2 = (t.pause p, false)) ∧
    (¬ (t.is_running = true ∧ t.is_paused = true) → t.resume r = t) ∧
    (t.is_running = true → t.is_paused = true →
      t.resume r =
        { t with
            start_time := t.start_time + (r - t.paused_time)
            is_paused := false }) ∧
    (t.is_running = true → t.is_paused = false → r < n2 →
      (¬ 0 < t.continued_focus_elapsed_seconds →
        0 < (t.pause p).time_left_seconds →
        (((t.pause p).resume r).tick n2).1.time_left_seconds
          < (t.pause p).time_left_seconds) ∧
      (0 < t.continued_focus_elapsed_seconds →
        (t.pause p).time_left_seconds
          < (((t.pause p).resume r).tick n2).1.time_left_seconds)) := by
  refine ⟨pause_not_active t p, ?_, resume_not_paused t r, resume_eq t r, ?_⟩
  · intro hr hp
    refine ⟨(pause_active_proj t p hr hp).1, (pause_active_proj t p hr hp).2,
      pause_time_left_countdown t p hr hp, pause_time_left_countup t p hr hp,
      tick_not_active _ n2 (Or.inr (pause_active_proj t p hr hp).1)⟩
  · intro hr hp hrn
    obtain ⟨qr, qs, qm, qf, qrm, qc⟩ := pause_proj t p
    have hpp := (pause_active_proj t p hr hp).1
    have hpt := (pause_active_proj t p hr hp).2
    have hr2 : (t.pause p).is_running = true := by rw [qr]; exact hr
    obtain ⟨wr, wm, wf, wrm, wt, wc⟩ := resume_proj (t.pause p) r
    have hrr : ((t.pause p).resume r).is_running = true := by rw [wr]; exact hr2
    have hrp : ((t.pause p).resume r).is_paused = false :=
      (resume_active_proj (t.pause p) r hr2 hpp).1
    have hst : ((t.pause p).resume r).start_time = t.start_time + (r - p) := by
      rw [(resume_active_proj (t.pause p) r hr2 hpp).2, qs, hpt]
    have hdur : ((t.pause p).resume r).initial_duration_for_mode
        = t.initial_duration_for_mode := by
      rw [Timer.initial_duration_for_mode, Timer.initial_duration_for_mode,
        wm, qm, wf, qf, wrm, qrm]
    have hcont : ((t.pause p).resume r).continued_focus_elapsed_seconds
        = t.continued_focus_elapsed_seconds := by rw [wc, qc]
    constructor
    · intro hc hfz
      have hrc : ¬ 0 < ((t.pause p).resume r).continued_focus_elapsed_seconds := by
        rw [hcont]
        exact hc
      rw [tick_countdown _ n2 hrr hrp hrc]
      dsimp only
      apply cast_max_pyInt_lt _ _ hfz
      rw [hdur, hst]
      rw [pause_time_left_countdown t p hr hp hc] at hfz ⊢
      have hX : 0 < t.initial_duration_for_mode - (p - t.start_time) :=
        (lt_max_iff.mp hfz).resolve_left (lt_irrefl 0)
      rw [max_eq_right hX.le]
      linarith
    · intro hc
      have hrc : 0 < ((t.pause p).resume r).continued_focus_elapsed_seconds := by
        rw [hcont]
        exact hc
      rw [tick_countup _ n2 hrr hrp hrc]
      dsimp only
      rw [hst, pause_time_left_countup t p hr hp hc]
      linarith

/-- C2 witness: `Timer(1,1)` started at 0, paused at 10 (freezing 50 seconds),
resumed at 20 and ticked at 25 has strictly less than 50 seconds left. -/
theorem pause_resume_spec_witness :
    ((((timerA.start 0).pause 10).resume 20).tick 25).1.time_left_seconds
      < ((timerA.start 0).pause 10).time_left_seconds := by
  have h := ((pause_resume_spec (timerA.start 0) 10 20 25).2.2.2.2 rfl rfl
    (by norm_num)).1
  apply h
  · decide
  · norm_num [Timer.pause, Timer.start, timerA, Timer.initial_duration_for_mode]

/-- C1 witness: on `Timer(1,1)` started at 0 and ticked at 60, the countdown
branch's finished-iff-zero equivalence instantiated concretely. -/
theorem tick_spec_witness :
    ((timerA.start 0).tick 60).2 = true ↔
      ((timerA.start 0).tick 60).1.time_left_seconds = 0 := by
  have h := (tick_spec (timerA.start 0) 60 90).2.2 rfl rfl (by decide)
  exact h.2.1

end Pomodoro
